import Mathlib

/-!
Verification of the validated calculation core of the proportio repository
(src/proportion_server.py, src/models.py).

The core is five pure functions over IEEE-754 doubles, each guarded by
assertion-style precondition checks.  We model double values exactly, by an
exact-arithmetic carrier `DFloat` that keeps the one representation artefact
the precondition checks can observe: the negative zero `-0.0`, which compares
numerically equal to `0` (as in Python's `!=`/`==` on floats) while being a
distinct value.  Nonzero values carry their exact rational value; rounding,
overflow and NaN are outside the model (the guarded code paths proved about
here involve only finitely many exact multiplications and divisions).

Precondition failures (Python `assert`) are modelled as `Except Err`, with
`Err` the error taxonomy of the specification: ZeroDenominator,
InvalidMissingCount, NegativeDimension (width/height), NonPositiveScale.
-/

/-- An exact model of a double value.  `negZero` is `-0.0`; `num q` is the
value `q`, with `num 0` being `+0.0`. -/
inductive DFloat where
  | negZero : DFloat
  | num : ℚ → DFloat
deriving DecidableEq

namespace DFloat

/-- The numeric value of a double; `-0.0` and `+0.0` both have value `0`.
Python's `==`, `!=`, `<`, `>=` on floats compare these numeric values. -/
def val : DFloat → ℚ
  | negZero => 0
  | num q => q

/-- The sign bit: set for `-0.0` and for negative numbers. -/
def signBit : DFloat → Bool
  | negZero => true
  | num q => decide (q < 0)

/-- Rebuild a double from an exact numeric value and a sign bit; the sign bit
only matters when the value is zero (it selects `-0.0` versus `+0.0`). -/
def ofParts (q : ℚ) (s : Bool) : DFloat :=
  if q = 0 then (if s then negZero else num 0) else num q

/-- Exact multiplication; the sign of a zero product is the xor of the operand
sign bits, as for IEEE-754 multiplication. -/
def mul (x y : DFloat) : DFloat :=
  ofParts (x.val * y.val) (x.signBit != y.signBit)

/-- Exact division; the sign of a zero quotient is the xor of the operand sign
bits, as for IEEE-754 division.  Only used with nonzero divisor (the guarded
code never divides by zero, so division by zero needs no infinities here). -/
def div (x y : DFloat) : DFloat :=
  ofParts (x.val / y.val) (x.signBit != y.signBit)

/-- Exact addition; a zero sum is `-0.0` exactly when both operands have their
sign bit set, as for IEEE-754 addition in round-to-nearest. -/
def add (x y : DFloat) : DFloat :=
  ofParts (x.val + y.val) (x.signBit && y.signBit)

end DFloat

/-- Which dimension of `resize_dimensions` violated its precondition. -/
inductive Dim where
  | width : Dim
  | height : Dim
deriving DecidableEq

/-- The error taxonomy of the specification: every failure of the core is one
of these precondition violations. -/
inductive Err where
  | zeroDenominator : Err
  | invalidMissingCount : Err
  | negativeDimension : Dim → Err
  | nonPositiveScale : Err
deriving DecidableEq

/-- Embedding of `percent_of` (src/proportion_server.py): assert `whole != 0`,
then return `(part / whole) * 100`. -/
def percent_of (part whole : DFloat) : Except Err DFloat :=
  if whole.val = 0 then .error .zeroDenominator
  else .ok ((part.div whole).mul (DFloat.num 100))

/-- Embedding of `solve_proportion` (src/proportion_server.py): count the
missing (`None`) arguments over `[a, b, c, d]`, assert the count is one, then
take the branch for the missing slot, assert its divisor is nonzero, and
return the cross-multiplication formula for that branch.  The final match arm
is unreachable when the count is one. -/
def solve_proportion (a b c d : Option DFloat) : Except Err DFloat :=
  let none_count := List.countP Option.isNone [a, b, c, d]
  if none_count = 1 then
    match a, b, c, d with
    | none, some bv, some cv, some dv =>
        if dv.val = 0 then .error .zeroDenominator
        else .ok ((bv.mul cv).div dv)
    | some av, none, some cv, some dv =>
        if cv.val = 0 then .error .zeroDenominator
        else .ok ((av.mul dv).div cv)
    | some av, some bv, none, some dv =>
        if bv.val = 0 then .error .zeroDenominator
        else .ok ((av.mul dv).div bv)
    | some av, some bv, some cv, none =>
        if av.val = 0 then .error .zeroDenominator
        else .ok ((bv.mul cv).div av)
    | _, _, _, _ => .error .invalidMissingCount
  else .error .invalidMissingCount

/-- Embedding of `scale_by_ratio` (src/proportion_server.py): no precondition
checks at all, so the embedding is a total function returning `value * ratio`. -/
def scale_by_ratio (value ratio : DFloat) : DFloat :=
  value.mul ratio

/-- Embedding of `direct_k` (src/proportion_server.py): assert `x != 0`, then
return `y / x`. -/
def direct_k (x y : DFloat) : Except Err DFloat :=
  if x.val = 0 then .error .zeroDenominator
  else .ok (y.div x)

/-- Embedding of `resize_dimensions` (src/proportion_server.py): assert
`width >= 0`, then `height >= 0`, then `scale > 0`, in that order, and return
`(width * scale, height * scale)`. -/
def resize_dimensions (width height scale : DFloat) : Except Err (DFloat × DFloat) :=
  if width.val < 0 then .error (.negativeDimension .width)
  else if height.val < 0 then .error (.negativeDimension .height)
  else if scale.val ≤ 0 then .error .nonPositiveScale
  else .ok (width.mul scale, height.mul scale)

/-- Embedding of `ProportionInput.validate_exactly_one_none` (src/models.py):
the model validator counts the `None` slots among `[a, b, c, d]` and accepts
exactly when the count is one. -/
def validate_exactly_one_none (a b c d : Option DFloat) : Bool :=
  List.countP Option.isNone [a, b, c, d] == 1

namespace DFloat

lemma val_ofParts (q : ℚ) (s : Bool) : (ofParts q s).val = q := by
  by_cases hq : q = 0 <;> cases s <;> simp [ofParts, val, hq]

lemma val_mul (x y : DFloat) : (x.mul y).val = x.val * y.val := by
  simp [mul, val_ofParts]

lemma val_div (x y : DFloat) : (x.div y).val = x.val / y.val := by
  simp [div, val_ofParts]

lemma val_add (x y : DFloat) : (x.add y).val = x.val + y.val := by
  simp [add, val_ofParts]

lemma ofParts_val_signBit (x : DFloat) : ofParts x.val x.signBit = x := by
  cases x with
  | negZero => simp [ofParts, val, signBit]
  | num q =>
      by_cases hq : q = 0
      · subst hq
        norm_num [ofParts, val, signBit]
      · simp [ofParts, val, signBit, hq]

end DFloat

lemma solve_proportion_a_missing (bv cv dv : DFloat) :
    solve_proportion none (some bv) (some cv) (some dv)
      = if dv.val = 0 then .error .zeroDenominator else .ok ((bv.mul cv).div dv) := by
  simp [solve_proportion, List.countP, List.countP.go]

lemma solve_proportion_b_missing (av cv dv : DFloat) :
    solve_proportion (some av) none (some cv) (some dv)
      = if cv.val = 0 then .error .zeroDenominator else .ok ((av.mul dv).div cv) := by
  simp [solve_proportion, List.countP, List.countP.go]

lemma solve_proportion_c_missing (av bv dv : DFloat) :
    solve_proportion (some av) (some bv) none (some dv)
      = if bv.val = 0 then .error .zeroDenominator else .ok ((av.mul dv).div bv) := by
  simp [solve_proportion, List.countP, List.countP.go]

lemma solve_proportion_d_missing (av bv cv : DFloat) :
    solve_proportion (some av) (some bv) (some cv) none
      = if av.val = 0 then .error .zeroDenominator else .ok ((bv.mul cv).div av) := by
  simp [solve_proportion, List.countP, List.countP.go]

lemma solve_proportion_invalid_iff (a b c d : Option DFloat) :
    solve_proportion a b c d = .error .invalidMissingCount
      ↔ List.countP Option.isNone [a, b, c, d] ≠ 1 := by
  rcases a with _ | av <;> rcases b with _ | bv <;> rcases c with _ | cv <;>
    rcases d with _ | dv <;>
    simp [solve_proportion, List.countP, List.countP.go] <;> split <;> simp_all

/-- C1: for every assignment with exactly one missing slot and a nonzero divisor
for the selected branch, `solve_proportion` returns the cross-multiplication
formula of that branch: `(b*c)/d`, `(a*d)/c`, `(a*d)/b`, `(b*c)/a` respectively. -/
theorem solve_proportion_cross_multiplication :
    (∀ bv cv dv : DFloat, dv.val ≠ 0 →
      solve_proportion none (some bv) (some cv) (some dv)
        = .ok ((bv.mul cv).div dv)) ∧
    (∀ av cv dv : DFloat, cv.val ≠ 0 →
      solve_proportion (some av) none (some cv) (some dv)
        = .ok ((av.mul dv).div cv)) ∧
    (∀ av bv dv : DFloat, bv.val ≠ 0 →
      solve_proportion (some av) (some bv) none (some dv)
        = .ok ((av.mul dv).div bv)) ∧
    (∀ av bv cv : DFloat, av.val ≠ 0 →
      solve_proportion (some av) (some bv) (some cv) none
        = .ok ((bv.mul cv).div av)) := by
  refine ⟨?_, ?_, ?_, ?_⟩
  · intro bv cv dv h
    rw [solve_proportion_a_missing, if_neg h]
  · intro av cv dv h
    rw [solve_proportion_b_missing, if_neg h]
  · intro av bv dv h
    rw [solve_proportion_c_missing, if_neg h]
  · intro av bv cv h
    rw [solve_proportion_d_missing, if_neg h]

/-- Witness for C1 at the spec's concrete instance `solve_proportion(None, 4, 6, 8)`. -/
theorem solve_proportion_cross_multiplication_witness :
    (DFloat.num 8).val ≠ 0 ∧
    solve_proportion none (some (DFloat.num 4)) (some (DFloat.num 6)) (some (DFloat.num 8))
      = .ok (((DFloat.num 4).mul (DFloat.num 6)).div (DFloat.num 8)) :=
  ⟨by norm_num [DFloat.val],
   solve_proportion_cross_multiplication.1 (DFloat.num 4) (DFloat.num 6) (DFloat.num 8)
     (by norm_num [DFloat.val])⟩

/-- C2: `solve_proportion` validates the exactly-one-missing count first and the
branch divisor second: whenever the missing count differs from one it fails with
`invalidMissingCount`; when the count is one it never fails with
`invalidMissingCount`; and in each branch the `zeroDenominator` failure occurs
exactly when that branch's divisor is numerically zero, independently of the
three non-divisor values. -/
theorem solve_proportion_validation_order :
    (∀ a b c d : Option DFloat, List.countP Option.isNone [a, b, c, d] ≠ 1 →
      solve_proportion a b c d = .error .invalidMissingCount) ∧
    (∀ a b c d : Option DFloat, List.countP Option.isNone [a, b, c, d] = 1 →
      solve_proportion a b c d ≠ .error .invalidMissingCount) ∧
    (∀ bv cv dv : DFloat,
      solve_proportion none (some bv) (some cv) (some dv) = .error .zeroDenominator
        ↔ dv.val = 0) ∧
    (∀ av cv dv : DFloat,
      solve_proportion (some av) none (some cv) (some dv) = .error .zeroDenominator
        ↔ cv.val = 0) ∧
    (∀ av bv dv : DFloat,
      solve_proportion (some av) (some bv) none (some dv) = .error .zeroDenominator
        ↔ bv.val = 0) ∧
    (∀ av bv cv : DFloat,
      solve_proportion (some av) (some bv) (some cv) none = .error .zeroDenominator
        ↔ av.val = 0) := by
  refine ⟨?_, ?_, ?_, ?_, ?_, ?_⟩
  · intro a b c d h
    exact (solve_proportion_invalid_iff a b c d).mpr h
  · intro a b c d h hc
    exact ((solve_proportion_invalid_iff a b c d).mp hc) (by simp [h])
  · intro bv cv dv
    rw [solve_proportion_a_missing]
    split <;> simp_all
  · intro av cv dv
    rw [solve_proportion_b_missing]
    split <;> simp_all
  · intro av bv dv
    rw [solve_proportion_c_missing]
    split <;> simp_all
  · intro av bv cv
    rw [solve_proportion_d_missing]
    split <;> simp_all

/-- Witness for C2 with all four arguments missing (count 4) and all four
provided (count 0). -/
theorem solve_proportion_validation_order_witness :
    solve_proportion none none none none = .error .invalidMissingCount ∧
    solve_proportion (some (DFloat.num 1)) (some (DFloat.num 2)) (some (DFloat.num 3))
        (some (DFloat.num 4)) = .error .invalidMissingCount :=
  ⟨solve_proportion_validation_order.1 none none none none
     (by norm_num [List.countP, List.countP.go]),
   solve_proportion_validation_order.1 _ _ _ _
     (by norm_num [List.countP, List.countP.go])⟩

/-- C3: `percent_of` returns exactly `(part / whole) * 100` whenever the whole
is numerically nonzero, and fails with `zeroDenominator` on a zero whole for
every part. -/
theorem percent_of_spec :
    (∀ part whole : DFloat, whole.val ≠ 0 →
      percent_of part whole = .ok ((part.div whole).mul (DFloat.num 100))) ∧
    (∀ part : DFloat, percent_of part (DFloat.num 0) = .error .zeroDenominator) := by
  constructor
  · intro part whole h
    unfold percent_of
    rw [if_neg h]
  · intro part
    simp [percent_of, DFloat.val]

/-- Witness for C3 at the spec's concrete instance `percent_of(25, 100)`, plus
the failing instance `percent_of(7, 0)`. -/
theorem percent_of_spec_witness :
    ((DFloat.num 100).val ≠ 0 ∧
      percent_of (DFloat.num 25) (DFloat.num 100)
        = .ok (((DFloat.num 25).div (DFloat.num 100)).mul (DFloat.num 100))) ∧
    percent_of (DFloat.num 7) (DFloat.num 0) = .error .zeroDenominator :=
  ⟨⟨by norm_num [DFloat.val],
    percent_of_spec.1 (DFloat.num 25) (DFloat.num 100) (by norm_num [DFloat.val])⟩,
   percent_of_spec.2 (DFloat.num 7)⟩

/-- C4: `resize_dimensions` returns exactly `(w*s, h*s)` when `w ≥ 0`, `h ≥ 0`
and `s > 0`, and checks its preconditions in the order width, height, scale:
a negative width wins over any other violation, then a negative height, then a
non-positive scale. -/
theorem resize_dimensions_spec :
    (∀ w h s : DFloat, 0 ≤ w.val → 0 ≤ h.val → 0 < s.val →
      resize_dimensions w h s = .ok (w.mul s, h.mul s)) ∧
    (∀ w h s : DFloat, w.val < 0 →
      resize_dimensions w h s = .error (.negativeDimension .width)) ∧
    (∀ w h s : DFloat, 0 ≤ w.val → h.val < 0 →
      resize_dimensions w h s = .error (.negativeDimension .height)) ∧
    (∀ w h s : DFloat, 0 ≤ w.val → 0 ≤ h.val → s.val ≤ 0 →
      resize_dimensions w h s = .error .nonPositiveScale) := by
  refine ⟨?_, ?_, ?_, ?_⟩
  · intro w h s hw hh hs
    unfold resize_dimensions
    rw [if_neg (not_lt.mpr hw), if_neg (not_lt.mpr hh), if_neg (not_le.mpr hs)]
  · intro w h s hw
    unfold resize_dimensions
    rw [if_pos hw]
  · intro w h s hw hh
    unfold resize_dimensions
    rw [if_neg (not_lt.mpr hw), if_pos hh]
  · intro w h s hw hh hs
    unfold resize_dimensions
    rw [if_neg (not_lt.mpr hw), if_neg (not_lt.mpr hh), if_pos hs]

/-- Witness for C4 at the spec's concrete instances `resize_dimensions(100, 50, 2)`
and `resize_dimensions(-100, 50, 2)` (negative width and, simultaneously with a
negative height, still the width violation). -/
theorem resize_dimensions_spec_witness :
    resize_dimensions (DFloat.num 100) (DFloat.num 50) (DFloat.num 2)
        = .ok ((DFloat.num 100).mul (DFloat.num 2), (DFloat.num 50).mul (DFloat.num 2)) ∧
    resize_dimensions (DFloat.num (-100)) (DFloat.num 50) (DFloat.num 2)
        = .error (.negativeDimension .width) ∧
    resize_dimensions (DFloat.num (-100)) (DFloat.num (-50)) (DFloat.num 0)
        = .error (.negativeDimension .width) :=
  ⟨resize_dimensions_spec.1 _ _ _ (by norm_num [DFloat.val]) (by norm_num [DFloat.val])
      (by norm_num [DFloat.val]),
   resize_dimensions_spec.2.1 _ _ _ (by norm_num [DFloat.val]),
   resize_dimensions_spec.2.1 _ _ _ (by norm_num [DFloat.val])⟩

/-- C5: `direct_k` returns `y / x` under the precondition `x ≠ 0`; in
particular `direct_k(x, 0)` returns a value numerically equal to `0.0` for
every nonzero `x`, and `direct_k(0, y)` fails with `zeroDenominator` for
every `y`. -/
theorem direct_k_spec :
    (∀ x y : DFloat, x.val ≠ 0 → direct_k x y = .ok (y.div x)) ∧
    (∀ x : DFloat, x.val ≠ 0 →
      ∃ r : DFloat, direct_k x (DFloat.num 0) = .ok r ∧ r.val = 0) ∧
    (∀ y : DFloat, direct_k (DFloat.num 0) y = .error .zeroDenominator) := by
  refine ⟨?_, ?_, ?_⟩
  · intro x y h
    unfold direct_k
    rw [if_neg h]
  · intro x h
    refine ⟨(DFloat.num 0).div x, ?_, ?_⟩
    · unfold direct_k
      rw [if_neg h]
    · rw [DFloat.val_div]
      simp [DFloat.val]
  · intro y
    simp [direct_k, DFloat.val]

/-- Witness for C5 at the spec's concrete instance `direct_k(5, 15)`, plus
`direct_k(5, 0)` returning a numeric zero. -/
theorem direct_k_spec_witness :
    ((DFloat.num 5).val ≠ 0 ∧
      direct_k (DFloat.num 5) (DFloat.num 15) = .ok ((DFloat.num 15).div (DFloat.num 5))) ∧
    (∃ r : DFloat, direct_k (DFloat.num 5) (DFloat.num 0) = .ok r ∧ r.val = 0) :=
  ⟨⟨by norm_num [DFloat.val],
    direct_k_spec.1 (DFloat.num 5) (DFloat.num 15) (by norm_num [DFloat.val])⟩,
   direct_k_spec.2.1 (DFloat.num 5) (by norm_num [DFloat.val])⟩

/-- C6: `scale_by_ratio` has no preconditions: it is a total function on the
carrier (it cannot fail on any input, zero and negative included) and always
returns the product `value * ratio`; whatever the arithmetic produces is
returned rather than rejected. -/
theorem scale_by_ratio_total (value ratio : DFloat) :
    scale_by_ratio value ratio = value.mul ratio ∧
    (scale_by_ratio value ratio).val = value.val * ratio.val :=
  ⟨rfl, DFloat.val_mul value ratio⟩

/-- C7: substituting the solved value back into the proportion satisfies the
cross-product equation `a*d = b*c` (exactly, in the exact-arithmetic model),
for each of the four missing-slot branches. -/
theorem solve_proportion_roundtrip :
    (∀ bv cv dv m : DFloat, dv.val ≠ 0 →
      solve_proportion none (some bv) (some cv) (some dv) = .ok m →
      m.val * dv.val = bv.val * cv.val) ∧
    (∀ av cv dv m : DFloat, cv.val ≠ 0 →
      solve_proportion (some av) none (some cv) (some dv) = .ok m →
      av.val * dv.val = m.val * cv.val) ∧
    (∀ av bv dv m : DFloat, bv.val ≠ 0 →
      solve_proportion (some av) (some bv) none (some dv) = .ok m →
      av.val * dv.val = bv.val * m.val) ∧
    (∀ av bv cv m : DFloat, av.val ≠ 0 →
      solve_proportion (some av) (some bv) (some cv) none = .ok m →
      av.val * m.val = bv.val * cv.val) := by
  refine ⟨?_, ?_, ?_, ?_⟩
  · intro bv cv dv m hd hm
    rw [solve_proportion_a_missing, if_neg hd] at hm
    simp only [Except.ok.injEq] at hm
    subst hm
    rw [DFloat.val_div, DFloat.val_mul]
    field_simp
  · intro av cv dv m hc hm
    rw [solve_proportion_b_missing, if_neg hc] at hm
    simp only [Except.ok.injEq] at hm
    subst hm
    rw [DFloat.val_div, DFloat.val_mul]
    field_simp
  · intro av bv dv m hb hm
    rw [solve_proportion_c_missing, if_neg hb] at hm
    simp only [Except.ok.injEq] at hm
    subst hm
    rw [DFloat.val_div, DFloat.val_mul]
    field_simp
  · intro av bv cv m ha hm
    rw [solve_proportion_d_missing, if_neg ha] at hm
    simp only [Except.ok.injEq] at hm
    subst hm
    rw [DFloat.val_div, DFloat.val_mul]
    field_simp

/-- Witness for C7 at the spec's concrete instance: the value solved from
`solve_proportion(None, 4, 6, 8)` satisfies `m*8 = 4*6`. -/
theorem solve_proportion_roundtrip_witness :
    (((DFloat.num 4).mul (DFloat.num 6)).div (DFloat.num 8)).val * (DFloat.num 8).val
      = (DFloat.num 4).val * (DFloat.num 6).val :=
  solve_proportion_roundtrip.1 (DFloat.num 4) (DFloat.num 6) (DFloat.num 8)
    (((DFloat.num 4).mul (DFloat.num 6)).div (DFloat.num 8))
    (by norm_num [DFloat.val])
    (by rw [solve_proportion_a_missing,
          if_neg (by norm_num [DFloat.val] : ¬(DFloat.num 8).val = 0)])

/-- C8: a ratio of one is an identity for `scale_by_ratio` (exact value
equality, negative zero included), and `scale_by_ratio` is linear in its first
argument: scaling a sum equals the sum of the scaled parts, as numeric values. -/
theorem scale_by_ratio_identity_linear :
    (∀ v : DFloat, scale_by_ratio v (DFloat.num 1) = v) ∧
    (∀ v1 v2 r : DFloat,
      (scale_by_ratio (v1.add v2) r).val
        = ((scale_by_ratio v1 r).add (scale_by_ratio v2 r)).val) := by
  constructor
  · intro v
    show v.mul (DFloat.num 1) = v
    have h1 : (DFloat.num 1).val = 1 := rfl
    have h2 : (DFloat.num 1).signBit = false := by norm_num [DFloat.signBit]
    have h3 : (v.signBit != false) = v.signBit := by cases v.signBit <;> rfl
    rw [DFloat.mul, h1, h2, mul_one, h3, DFloat.ofParts_val_signBit]
  · intro v1 v2 r
    simp only [scale_by_ratio, DFloat.val_mul, DFloat.val_add]
    ring

/-- C9: the zero-denominator checks compare numeric values, so the negative
zero `-0.0` is treated as zero: `percent_of` with whole `-0.0`, `direct_k` with
x `-0.0`, and `solve_proportion` with the taken branch's divisor `-0.0` all
fail with `zeroDenominator` instead of dividing. -/
theorem neg_zero_divisor_checks :
    (∀ part : DFloat, percent_of part DFloat.negZero = .error .zeroDenominator) ∧
    (∀ y : DFloat, direct_k DFloat.negZero y = .error .zeroDenominator) ∧
    (∀ bv cv : DFloat,
      solve_proportion none (some bv) (some cv) (some DFloat.negZero)
        = .error .zeroDenominator) ∧
    (∀ av dv : DFloat,
      solve_proportion (some av) none (some DFloat.negZero) (some dv)
        = .error .zeroDenominator) ∧
    (∀ av dv : DFloat,
      solve_proportion (some av) (some DFloat.negZero) none (some dv)
        = .error .zeroDenominator) ∧
    (∀ bv cv : DFloat,
      solve_proportion (some DFloat.negZero) (some bv) (some cv) none
        = .error .zeroDenominator) := by
  refine ⟨?_, ?_, ?_, ?_, ?_, ?_⟩
  · intro part
    simp [percent_of, DFloat.val]
  · intro y
    simp [direct_k, DFloat.val]
  · intro bv cv
    rw [solve_proportion_a_missing]
    simp [DFloat.val]
  · intro av dv
    rw [solve_proportion_b_missing]
    simp [DFloat.val]
  · intro av dv
    rw [solve_proportion_c_missing]
    simp [DFloat.val]
  · intro bv cv
    rw [solve_proportion_d_missing]
    simp [DFloat.val]

/-- C10: the model validator of `ProportionInput` and the missing-count check
of `solve_proportion` agree on every input: the validator accepts exactly when
`solve_proportion` does not fail with `invalidMissingCount`. -/
theorem validator_matches_solver_check (a b c d : Option DFloat) :
    validate_exactly_one_none a b c d = true
      ↔ solve_proportion a b c d ≠ .error .invalidMissingCount := by
  rw [ne_eq, solve_proportion_invalid_iff, not_not]
  simp [validate_exactly_one_none]

/-- Witness for C10 at a concrete accepted input and a concrete rejected one. -/
theorem validator_matches_solver_check_witness :
    solve_proportion none (some (DFloat.num 4)) (some (DFloat.num 6)) (some (DFloat.num 8))
        ≠ .error .invalidMissingCount ∧
    validate_exactly_one_none none none (some (DFloat.num 6)) (some (DFloat.num 8)) ≠ true :=
  ⟨(validator_matches_solver_check none (some (DFloat.num 4)) (some (DFloat.num 6))
      (some (DFloat.num 8))).mp
      (by norm_num [validate_exactly_one_none, List.countP, List.countP.go]),
   fun hv =>
     ((validator_matches_solver_check none none (some (DFloat.num 6))
          (some (DFloat.num 8))).mp hv)
       (by norm_num [solve_proportion, List.countP, List.countP.go])⟩
